import Mathlib

/-!
Shallow embedding of the bytecode virtual-machine subsystem of the repository
(`RockPaperScissors.cpp`): tagged values, the mark-and-sweep garbage
collector, bytecode chunks, the VM fetch-decode-execute loop and the
two-pass assembler.  Each definition mirrors the corresponding C++
declaration; machine integers (`int64_t` payloads, `int32_t` operands,
`size_t` instruction pointers) are modelled as `Int`/`Nat` with explicit
two's-complement wrapping where the C++ width matters.  Heap objects are
identified by allocation ids; a C++ `Object*` becomes `Option Nat`
(`none` is the null pointer).  The VM operand stack is represented
top-first (the head of the list is the top of the C++ vector).  Output to
`std::cout` by PRINT is modelled as the list of printed values; the
diagnostic that `runtimeError` writes to `std::cerr` is modelled by the
`errored` flag.
-/

/-- Opcode enumeration, mirroring `enum class OpCode`. -/
inductive OpCode where
  | PUSH | POP | DUP | SWAP
  | ADD | SUB | MUL | DIV | MOD | NEG
  | EQ | NE | LT | LE | GT | GE
  | AND | OR | NOT
  | LOAD | STORE | LOAD_GLOBAL | STORE_GLOBAL
  | JMP | JMP_IF_FALSE | JMP_IF_TRUE | CALL | RET
  | NEW_ARRAY | ARRAY_GET | ARRAY_SET | ARRAY_LEN
  | PRINT | HALT | NOP
  deriving DecidableEq, Repr

/-- Two's-complement wrap to a signed 64-bit integer, modelling `int64_t`
arithmetic in the C++ source (overflow wraps). -/
def wrap64 (x : Int) : Int := (x + 2 ^ 63) % 2 ^ 64 - 2 ^ 63

/-- The signed 64-bit range of an `int64_t` payload. -/
def int64Range (x : Int) : Prop := -(2 ^ 63) ≤ x ∧ x < 2 ^ 63

/-- Conversion of a (possibly negative) integer to a `size_t` instruction
pointer, as in `ip = instr.operand`: modular conversion to 64-bit unsigned. -/
def toIp (o : Int) : Nat := (o % 2 ^ 64).toNat

/-- Payload of a heap object: `struct ArrayObject` holds a vector of
`int64_t`, `struct StringObject` holds a string. -/
inductive ObjData where
  | array (elements : List Int)
  | string (data : String)
  deriving Repr

/-- A heap `Object`: discriminated payload plus the transient GC mark flag
(`bool marked = false`). -/
structure HeapObj where
  marked : Bool
  data : ObjData
  deriving Repr

/-- Tagged `Value`: nil, boolean, 64-bit integer, double, or object
reference (`Object*`, nullable, modelled as the allocation id). -/
inductive Value where
  | nil
  | bool (b : Bool)
  | int (i : Int)
  | double (d : Float)
  | obj (o : Option Nat)

/-- `Value::isTruthy`. -/
def Value.isTruthy : Value → Bool
  | .nil => false
  | .bool b => b
  | .int i => i != 0
  | .double d => !(d == 0.0)
  | .obj o => o.isSome

/-- State of the `GarbageCollector`: the registry of live objects (in
allocation order, keyed by allocation id), the id for the next allocation,
and the collection watermark fields `nextGC` and `threshold`
(both initialised to 8). -/
structure GCState where
  objects : List (Nat × HeapObj)
  nextId : Nat
  nextGC : Nat
  threshold : Nat

/-- The collector as constructed: empty registry, `nextGC = 8`,
`threshold = 8`. -/
def GCState.init : GCState := { objects := [], nextId := 0, nextGC := 8, threshold := 8 }

/-- Does the value reference the object with id `i`?  (Mirrors the guard in
`markValue`: the value must be object-tagged with a non-null pointer.) -/
def valueRefs (i : Nat) : Value → Bool
  | .obj (some j) => j == i
  | _ => false

/-- Set the mark flag of an object record. -/
def setMark (p : Nat × HeapObj) : Nat × HeapObj := (p.1, { p.2 with marked := true })

/-- Clear the mark flag of an object record (the sweep phase does this to
every survivor). -/
def clearMark (p : Nat × HeapObj) : Nat × HeapObj := (p.1, { p.2 with marked := false })

/-- `GarbageCollector::markValue` followed by `markObject`: mark the
registry entry referenced by the value (no-op for non-object or null
values; arrays contain primitive integers so nothing further is marked). -/
def markValue (objects : List (Nat × HeapObj)) (v : Value) : List (Nat × HeapObj) :=
  objects.map (fun p => if valueRefs p.1 v then setMark p else p)

/-- `GarbageCollector::sweep`: delete every still-unmarked object, keep the
survivors in order and clear their mark flags. -/
def sweepObjects (objects : List (Nat × HeapObj)) : List (Nat × HeapObj) :=
  (objects.filter (fun p => p.2.marked)).map clearMark

/-- `GarbageCollector::collect`: mark phase over the two root collections
(operand stack, then globals), sweep phase, then
`nextGC = objects.size() * 2` floored at `threshold`. -/
def GCState.collect (g : GCState) (stack globals : List Value) : GCState :=
  let m1 := stack.foldl markValue g.objects
  let m2 := globals.foldl markValue m1
  let survivors := sweepObjects m2
  let n := survivors.length * 2
  { g with objects := survivors, nextGC := if n < g.threshold then g.threshold else n }

/-- `GarbageCollector::shouldCollect`: `objects.size() >= nextGC`. -/
def GCState.shouldCollect (g : GCState) : Bool := g.nextGC ≤ g.objects.length

/-- `GarbageCollector::allocate`: register a fresh (unmarked) object and
return its id. -/
def GCState.allocate (g : GCState) (d : ObjData) : Nat × GCState :=
  (g.nextId,
   { g with objects := g.objects ++ [(g.nextId, { marked := false, data := d })],
            nextId := g.nextId + 1 })

/-- `GarbageCollector::objectCount`. -/
def GCState.objectCount (g : GCState) : Nat := g.objects.length

/-- Look an object up in the registry by id. -/
def GCState.find (g : GCState) (i : Nat) : Option HeapObj :=
  (g.objects.find? (fun p => p.1 == i)).map Prod.snd

/-- A bytecode `Instruction`: opcode plus the `int32_t` operand
(default 0). -/
structure Instruction where
  opcode : OpCode
  operand : Int

/-- A bytecode `Chunk`: instruction sequence, constant pool and
per-instruction line table. -/
structure Chunk where
  code : List Instruction
  constants : List Value
  lines : List Int

/-- `Chunk::write`: append an instruction and its line in lock-step. -/
def Chunk.write (c : Chunk) (instr : Instruction) (line : Int) : Chunk :=
  { c with code := c.code ++ [instr], lines := c.lines ++ [line] }

/-- `Chunk::addConstant`: append to the constant pool, returning the new
constant's index. -/
def Chunk.addConstant (c : Chunk) (v : Value) : Nat × Chunk :=
  (c.constants.length, { c with constants := c.constants ++ [v] })

/-- The mutable state of a `VM` instance.  `globals` and `callStack` live in
the VM object and are NOT reset by `execute`; `running` is the loop flag that
both `HALT`/empty-stack-`RET` and `runtimeError` clear; `errored` records
that `runtimeError` emitted a diagnostic during the current run (distinguishes
the Errored terminal state from Halted); `output` is the text sink fed by
PRINT, as the list of printed values. -/
structure VMState where
  ip : Nat
  stack : List Value
  globals : List Value
  callStack : List Nat
  gc : GCState
  running : Bool
  errored : Bool
  output : List Value

/-- A freshly constructed `VM`: 256 pre-allocated nil globals, empty stacks,
fresh collector. -/
def VMState.init : VMState :=
  { ip := 0, stack := [], globals := List.replicate 256 Value.nil, callStack := [],
    gc := GCState.init, running := true, errored := false, output := [] }

/-- `VM::runtimeError`: emit a diagnostic and stop the run. -/
def VMState.runtimeError (s : VMState) : VMState :=
  { s with running := false, errored := true }

/-- `VM::push`. -/
def VMState.push (s : VMState) (v : Value) : VMState :=
  { s with stack := v :: s.stack }

/-- `VM::pop`: popping an empty stack is a "Stack underflow" runtime error
that yields `Nil`. -/
def VMState.pop (s : VMState) : Value × VMState :=
  match s.stack with
  | [] => (Value.nil, s.runtimeError)
  | v :: rest => (v, { s with stack := rest })

/-- `VM::peek`: reading deeper than the stack yields `Nil` (no error). -/
def VMState.peek (s : VMState) (distance : Nat) : Value :=
  if distance < s.stack.length then s.stack.getD distance Value.nil else Value.nil

/-- `VM::binaryOp`: pop b then a; both must be integer-tagged; DIV/MOD by
zero and non-integer operands are runtime errors yielding `Nil`.  C++
`int64_t` arithmetic wraps (`wrap64`); `/` truncates toward zero and `%`
takes the dividend's sign (`Int.tdiv`/`Int.tmod`). -/
def VMState.binaryOp (s : VMState) (op : OpCode) : Value × VMState :=
  let (b, s1) := s.pop
  let (a, s2) := s1.pop
  match a, b with
  | .int x, .int y =>
    match op with
    | .ADD => (.int (wrap64 (x + y)), s2)
    | .SUB => (.int (wrap64 (x - y)), s2)
    | .MUL => (.int (wrap64 (x * y)), s2)
    | .DIV =>
      if y = 0 then (Value.nil, s2.runtimeError)
      else (.int (wrap64 (Int.tdiv x y)), s2)
    | .MOD =>
      if y = 0 then (Value.nil, s2.runtimeError)
      else (.int (wrap64 (Int.tmod x y)), s2)
    | .LT => (.bool (decide (x < y)), s2)
    | .LE => (.bool (decide (x ≤ y)), s2)
    | .GT => (.bool (decide (y < x)), s2)
    | .GE => (.bool (decide (y ≤ x)), s2)
    | .EQ => (.bool (decide (x = y)), s2)
    | .NE => (.bool (decide (x ≠ y)), s2)
    | _ => (Value.nil, s2.runtimeError)
  | _, _ => (Value.nil, s2.runtimeError)

/-- One iteration of the dispatch `switch` in `VM::execute`: fetch the
instruction at `ip`, advance `ip`, dispatch.  (The caller guarantees
`ip < code.length`; an out-of-range fetch leaves the state unchanged.)
`LOAD` and `STORE` have no case in the source switch and fall to the
`default:` "Unknown opcode" error.  `ARRAY_GET`/`ARRAY_SET` on a null or
stale object pointer dereference freed memory in C++ (undefined behaviour);
the model folds that case into the "Invalid array access" error branch,
which no claim exercises. -/
def VMState.step (c : Chunk) (s : VMState) : VMState :=
  match c.code[s.ip]? with
  | none => s
  | some instr =>
    let s := { s with ip := s.ip + 1 }
    match instr.opcode with
    | .PUSH =>
      if 0 ≤ instr.operand ∧ instr.operand < c.constants.length then
        s.push (c.constants.getD instr.operand.toNat Value.nil)
      else s
    | .POP => (s.pop).2
    | .DUP => s.push (s.peek 0)
    | .SWAP =>
      let (b, s1) := s.pop
      let (a, s2) := s1.pop
      (s2.push b).push a
    | .ADD | .SUB | .MUL | .DIV | .MOD | .LT | .LE | .GT | .GE | .EQ | .NE =>
      let (v, s1) := s.binaryOp instr.opcode
      s1.push v
    | .NEG =>
      let (a, s1) := s.pop
      match a with
      | .int x => s1.push (.int (wrap64 (-x)))
      | _ => s1.runtimeError
    | .NOT =>
      let (a, s1) := s.pop
      s1.push (.bool (!a.isTruthy))
    | .AND =>
      let (b, s1) := s.pop
      let (a, s2) := s1.pop
      s2.push (.bool (a.isTruthy && b.isTruthy))
    | .OR =>
      let (b, s1) := s.pop
      let (a, s2) := s1.pop
      s2.push (.bool (a.isTruthy || b.isTruthy))
    | .LOAD_GLOBAL =>
      if 0 ≤ instr.operand ∧ instr.operand < s.globals.length then
        s.push (s.globals.getD instr.operand.toNat Value.nil)
      else s
    | .STORE_GLOBAL =>
      if 0 ≤ instr.operand ∧ instr.operand < s.globals.length then
        { s with globals := s.globals.set instr.operand.toNat (s.peek 0) }
      else s
    | .JMP => { s with ip := toIp instr.operand }
    | .JMP_IF_FALSE =>
      if !(s.peek 0).isTruthy then { s with ip := toIp instr.operand } else s
    | .JMP_IF_TRUE =>
      if (s.peek 0).isTruthy then { s with ip := toIp instr.operand } else s
    | .CALL => { s with callStack := s.ip :: s.callStack, ip := toIp instr.operand }
    | .RET =>
      match s.callStack with
      | r :: rest => { s with ip := r, callStack := rest }
      | [] => { s with running := false }
    | .NEW_ARRAY =>
      let (i, g) := s.gc.allocate (.array (List.replicate (toIp instr.operand) 0))
      { s with gc := g }.push (.obj (some i))
    | .ARRAY_GET =>
      let (idx, s1) := s.pop
      let (arr, s2) := s1.pop
      match arr, idx with
      | .obj (some i), .int k =>
        match s2.gc.find i with
        | some { marked := _, data := .array elems } =>
          if 0 ≤ k ∧ k < elems.length then s2.push (.int (elems.getD k.toNat 0))
          else s2.runtimeError
        | _ => s2.runtimeError
      | _, _ => s2.runtimeError
    | .ARRAY_SET =>
      let (v, s1) := s.pop
      let (idx, s2) := s1.pop
      let (arr, s3) := s2.pop
      match arr, idx, v with
      | .obj (some i), .int k, .int x =>
        match s3.gc.find i with
        | some { marked := m, data := .array elems } =>
          if 0 ≤ k ∧ k < elems.length then
            let repl : List (Nat × HeapObj) := s3.gc.objects.map (fun p =>
              if p.1 == i then (p.1, { marked := m, data := .array (elems.set k.toNat x) })
              else p)
            { s3 with gc := { s3.gc with objects := repl } }
          else s3.runtimeError
        | _ => s3.runtimeError
      | _, _, _ => s3.runtimeError
    | .ARRAY_LEN =>
      let (arr, s1) := s.pop
      match arr with
      | .obj (some i) =>
        match s1.gc.find i with
        | some { marked := _, data := .array elems } => s1.push (.int elems.length)
        | _ => s1.runtimeError
      | _ => s1.runtimeError
    | .PRINT =>
      let (v, s1) := s.pop
      { s1 with output := s1.output ++ [v] }
    | .HALT => { s with running := false }
    | .NOP => s
    | .LOAD | .STORE => s.runtimeError

/-- The `while (running && ip < chunk->code.size())` loop of `VM::execute`,
with a fuel bound to keep the model total: each iteration first gives the
collector a chance to run (roots: operand stack and globals), then executes
one instruction. -/
def VMState.run (c : Chunk) : Nat → VMState → VMState
  | 0, s => s
  | fuel + 1, s =>
    if s.running ∧ s.ip < c.code.length then
      let s :=
        if s.gc.shouldCollect then { s with gc := s.gc.collect s.stack s.globals } else s
      VMState.run c fuel (s.step c)
    else s

/-- The prologue of `VM::execute`: reset the instruction pointer and loop
flag and clear the operand stack (globals, call stack, collector state and
already emitted output persist from previous runs on the same VM object). -/
def VMState.executeInit (s : VMState) : VMState :=
  { s with ip := 0, running := true, errored := false, stack := [] }

/-- `VM::execute(chunk)`: run the loop, then `return running || ip >= size`. -/
def VMState.execute (s : VMState) (c : Chunk) (fuel : Nat) : Bool × VMState :=
  let f := VMState.run c fuel s.executeInit
  (f.running || decide (c.code.length ≤ f.ip), f)

/-- Two's-complement wrap to a signed 32-bit integer, modelling storage
into the `int32_t` instruction operand. -/
def wrap32 (x : Int) : Int := (x + 2 ^ 31) % 2 ^ 32 - 2 ^ 31

/-- Association-list lookup modelling `std::unordered_map::find`. -/
def lookupLabel (m : List (String × Nat)) (k : String) : Option Nat :=
  (m.find? (fun p => p.1 == k)).map Prod.snd

/-- `labels[name] = v` on an `unordered_map`: replace the existing entry if
the key is present, otherwise insert. -/
def mapInsert (m : List (String × Nat)) (k : String) (v : Nat) : List (String × Nat) :=
  if m.any (fun p => p.1 == k) then m.map (fun p => if p.1 == k then (k, v) else p)
  else m ++ [(k, v)]

/-- Overwrite the operand of the instruction at `off` (the back-patching in
`Assembler::resolve`). -/
def patchOperand (c : Chunk) (off : Nat) (v : Int) : Chunk :=
  match c.code[off]? with
  | some ins => { c with code := c.code.set off { ins with operand := v } }
  | none => c

/-- The `Assembler` builder: the chunk under construction, the label map,
the list of unresolved jump sites, and the current source line.  `errors`
models the diagnostics the class writes to `std::cerr` (only `resolve`
writes any). -/
structure Assembler where
  chunk : Chunk
  labels : List (String × Nat)
  unresolvedJumps : List (Nat × String)
  currentLine : Int
  errors : List String

/-- An assembler over an empty chunk (`currentLine = 1`). -/
def Assembler.init : Assembler :=
  { chunk := { code := [], constants := [], lines := [] }, labels := [],
    unresolvedJumps := [], currentLine := 1, errors := [] }

/-- `Assembler::label`: `labels[name] = chunk->code.size()` — an unguarded
map assignment. -/
def Assembler.label (a : Assembler) (name : String) : Assembler :=
  { a with labels := mapInsert a.labels name a.chunk.code.length }

/-- `Assembler::push`: add the integer constant, emit PUSH of its index. -/
def Assembler.push (a : Assembler) (value : Int) : Assembler :=
  let (idx, c) := a.chunk.addConstant (.int value)
  { a with chunk := c.write { opcode := .PUSH, operand := wrap32 idx } a.currentLine }

/-- `Assembler::op`: emit an operand-less instruction. -/
def Assembler.op (a : Assembler) (opcode : OpCode) : Assembler :=
  { a with chunk := a.chunk.write { opcode := opcode, operand := 0 } a.currentLine }

/-- `Assembler::jump`: record the jump site as unresolved and emit a
placeholder `JMP 0`. -/
def Assembler.jump (a : Assembler) (name : String) : Assembler :=
  { a with unresolvedJumps := a.unresolvedJumps ++ [(a.chunk.code.length, name)],
           chunk := a.chunk.write { opcode := .JMP, operand := 0 } a.currentLine }

/-- `Assembler::jumpIfFalse`: unresolved site plus placeholder
`JMP_IF_FALSE 0`. -/
def Assembler.jumpIfFalse (a : Assembler) (name : String) : Assembler :=
  { a with unresolvedJumps := a.unresolvedJumps ++ [(a.chunk.code.length, name)],
           chunk := a.chunk.write { opcode := .JMP_IF_FALSE, operand := 0 } a.currentLine }

/-- `Assembler::jumpIfTrue`: unresolved site plus placeholder
`JMP_IF_TRUE 0`. -/
def Assembler.jumpIfTrue (a : Assembler) (name : String) : Assembler :=
  { a with unresolvedJumps := a.unresolvedJumps ++ [(a.chunk.code.length, name)],
           chunk := a.chunk.write { opcode := .JMP_IF_TRUE, operand := 0 } a.currentLine }

/-- `Assembler::loadGlobal`. -/
def Assembler.loadGlobal (a : Assembler) (idx : Int) : Assembler :=
  { a with chunk := a.chunk.write { opcode := .LOAD_GLOBAL, operand := idx } a.currentLine }

/-- `Assembler::storeGlobal`. -/
def Assembler.storeGlobal (a : Assembler) (idx : Int) : Assembler :=
  { a with chunk := a.chunk.write { opcode := .STORE_GLOBAL, operand := idx } a.currentLine }

/-- `Assembler::newArray`. -/
def Assembler.newArray (a : Assembler) (size : Int) : Assembler :=
  { a with chunk := a.chunk.write { opcode := .NEW_ARRAY, operand := size } a.currentLine }

/-- The loop body of `Assembler::resolve`: for each unresolved site in
order, patch the operand with the label's recorded address if the label is
defined, otherwise emit an "Undefined label" diagnostic and leave the
placeholder operand untouched. -/
def resolveGo (labels : List (String × Nat)) :
    List (Nat × String) → Chunk → List String → Chunk × List String
  | [], c, errs => (c, errs)
  | (off, name) :: rest, c, errs =>
    match lookupLabel labels name with
    | some addr => resolveGo labels rest (patchOperand c off (wrap32 addr)) errs
    | none => resolveGo labels rest c (errs ++ ["Error: Undefined label " ++ name])

/-- `Assembler::resolve`. -/
def Assembler.resolve (a : Assembler) : Assembler :=
  let r := resolveGo a.labels a.unresolvedJumps a.chunk a.errors
  { a with chunk := r.1, errors := r.2 }

/-- `Assembler::nextLine`. -/
def Assembler.nextLine (a : Assembler) : Assembler :=
  { a with currentLine := a.currentLine + 1 }

/-- The host language's signed 64-bit integer operations (C++ `int64_t`):
two's-complement wrapping `+`, `-`, `*`, truncating division and
dividend-signed remainder. -/
def host64 : OpCode → Int → Int → Int
  | .ADD, a, b => wrap64 (a + b)
  | .SUB, a, b => wrap64 (a - b)
  | .MUL, a, b => wrap64 (a * b)
  | .DIV, a, b => wrap64 (Int.tdiv a b)
  | .MOD, a, b => wrap64 (Int.tmod a b)
  | _, _, _ => 0

/-- The program `PUSH a; PUSH b; OP; PRINT` of §8's arithmetic property. -/
def arithChunk (a b : Int) (op : OpCode) : Chunk :=
  { code := [{ opcode := .PUSH, operand := 0 }, { opcode := .PUSH, operand := 1 },
             { opcode := op, operand := 0 }, { opcode := .PRINT, operand := 0 }],
    constants := [.int a, .int b], lines := [1, 1, 1, 1] }

/-- The program `PUSH a; PUSH 0; OP` of the division-by-zero property. -/
def divZeroChunk (a : Int) (op : OpCode) : Chunk :=
  { code := [{ opcode := .PUSH, operand := 0 }, { opcode := .PUSH, operand := 1 },
             { opcode := op, operand := 0 }],
    constants := [.int a, .int 0], lines := [1, 1, 1] }

/-- A program that halts explicitly before its last instruction. -/
def haltNotLastChunk : Chunk :=
  { code := [{ opcode := .HALT, operand := 0 }, { opcode := .NOP, operand := 0 }],
    constants := [], lines := [0, 0] }

/-- A program that stores the integer 42 into global slot 0 and halts. -/
def storeFortyTwoChunk : Chunk :=
  { code := [{ opcode := .PUSH, operand := 0 }, { opcode := .STORE_GLOBAL, operand := 0 },
             { opcode := .HALT, operand := 0 }],
    constants := [.int 42], lines := [1, 1, 1] }

/-- A program that prints global slot 0 and halts. -/
def printGlobalChunk : Chunk :=
  { code := [{ opcode := .LOAD_GLOBAL, operand := 0 }, { opcode := .PRINT, operand := 0 },
             { opcode := .HALT, operand := 0 }],
    constants := [], lines := [1, 1, 1] }

/-- A collector state holding eight unmarked objects with the initial
watermark, as when the first collection triggers with no reachable roots. -/
def gcEight : GCState :=
  { objects := (List.range 8).map (fun i => (i, { marked := false, data := .array [] })),
    nextId := 8, nextGC := 8, threshold := 8 }

/-- A two-object registry for exercising `collect`: object 0 an array,
object 1 a string, both unmarked. -/
def gcTwo : GCState :=
  { objects := [(0, { marked := false, data := .array [1, 2] }),
                (1, { marked := false, data := .string "x" })],
    nextId := 2, nextGC := 8, threshold := 8 }

/-- A build that defines label `L`, emits one instruction, then defines `L`
again. -/
def dupLabelAsm : Assembler := ((Assembler.init.label "L").op .NOP).label "L"

/-- The same build just before the second `label` call. -/
def dupLabelAsmFirst : Assembler := (Assembler.init.label "L").op .NOP

/-- A build with one forward jump to a label defined two instructions
later, not yet resolved. -/
def fwdJumpAsm : Assembler :=
  (((Assembler.init.jump "end").op .NOP).label "end").op .HALT

/-- A build with a jump to a label that is never defined, not yet
resolved. -/
def missingLabelAsm : Assembler := (Assembler.init.jump "missing").op .HALT

/-- A one-instruction chunk holding a single `STORE_GLOBAL 3`. -/
def storeGlobalChunk : Chunk :=
  { code := [{ opcode := .STORE_GLOBAL, operand := 3 }], constants := [], lines := [1] }

/-- A VM state about to execute `storeGlobalChunk` with `int 9` on the
operand stack. -/
def storeGlobalState : VMState := { VMState.init with stack := [Value.int 9] }

/-- One-instruction chunks for the peek-leniency checks. -/
def dupChunk : Chunk :=
  { code := [{ opcode := .DUP, operand := 0 }], constants := [], lines := [1] }

/-- A single `STORE_GLOBAL 0`. -/
def storeZeroChunk : Chunk :=
  { code := [{ opcode := .STORE_GLOBAL, operand := 0 }], constants := [], lines := [1] }

/-- A single `JMP_IF_FALSE 7`. -/
def jmpIfFalseChunk : Chunk :=
  { code := [{ opcode := .JMP_IF_FALSE, operand := 7 }], constants := [], lines := [1] }

/-- The VM state after the first instruction of `arithChunk` (constant `a`
pushed). -/
def arithS1 (a : Int) : VMState :=
  { ip := 1, stack := [Value.int a], globals := List.replicate 256 Value.nil,
    callStack := [], gc := GCState.init, running := true, errored := false, output := [] }

/-- The VM state after the second instruction of `arithChunk` (`b` pushed
on top of `a`). -/
def arithS2 (a b : Int) : VMState :=
  { arithS1 a with ip := 2, stack := [Value.int b, Value.int a] }

/-- The VM state after the arithmetic opcode of `arithChunk` (operands
replaced by the 64-bit result). -/
def arithS3 (a b : Int) (op : OpCode) : VMState :=
  { arithS1 a with ip := 3, stack := [Value.int (host64 op a b)] }

/-- The VM state after the PRINT of `arithChunk` (result popped and
emitted). -/
def arithS4 (a b : Int) (op : OpCode) : VMState :=
  { arithS1 a with ip := 4, stack := [], output := [Value.int (host64 op a b)] }

theorem setMark_fst (p : Nat × HeapObj) : (setMark p).1 = p.1 := rfl

theorem setMark_setMark (p : Nat × HeapObj) : setMark (setMark p) = setMark p := rfl

/-- Mark-phase characterisation: folding `markValue` over a root list marks
exactly the entries some root references. -/
theorem foldl_markValue (roots : List Value) (objs : List (Nat × HeapObj)) :
    roots.foldl markValue objs =
      objs.map (fun p => if roots.any (valueRefs p.1) then setMark p else p) := by
  induction roots generalizing objs with
  | nil => simp
  | cons v rest ih =>
    rw [List.foldl_cons, ih, markValue, List.map_map]
    refine congrArg (fun f => objs.map f) (funext fun p => ?_)
    by_cases hv : valueRefs p.1 v
    · simp [hv, Function.comp, setMark_fst, setMark_setMark]
    · simp [hv, Function.comp]

theorem clearMark_setMark (p : Nat × HeapObj) (h : p.2.marked = false) :
    clearMark (setMark p) = p := by
  obtain ⟨i, m, d⟩ := p
  simp at h
  simp [clearMark, setMark, h]

theorem clearMark_of_unmarked (p : Nat × HeapObj) (h : p.2.marked = false) :
    clearMark p = p := by
  obtain ⟨i, m, d⟩ := p
  simp at h
  simp [clearMark, h]

/-- Sweep after a mark of an all-unmarked registry keeps exactly the marked
entries, restored to their unmarked originals. -/
theorem sweep_marked_of_unmarked (objs : List (Nat × HeapObj)) (b : Nat → Bool)
    (h : ∀ p ∈ objs, p.2.marked = false) :
    sweepObjects (objs.map (fun p => if b p.1 then setMark p else p)) =
      objs.filter (fun p => b p.1) := by
  induction objs with
  | nil => simp [sweepObjects]
  | cons p rest ih =>
    have hp := h p (by simp)
    have hrest : ∀ q ∈ rest, q.2.marked = false := fun q hq => h q (by simp [hq])
    by_cases hb : b p.1
    · simp only [List.map_cons, hb, if_pos, sweepObjects, List.filter_cons]
      have : (setMark p).2.marked = true := rfl
      simp [this, hb, clearMark_setMark p hp, ← ih hrest, sweepObjects]
    · simp only [List.map_cons, hb, if_neg, sweepObjects, List.filter_cons]
      simp [hp, hb, ← ih hrest, sweepObjects]

/-- C2: given the invariant that all registered objects are unmarked
outside a collection pass, `collect` leaves the registry holding exactly
the objects referenced from the supplied roots (operand stack and global
table), every survivor unmarked, and frees no object a root references. -/
theorem collect_retains_exactly_reachable (g : GCState) (stack globals : List Value)
    (h : ∀ p ∈ g.objects, p.2.marked = false) :
    (g.collect stack globals).objects =
      g.objects.filter (fun p => (stack ++ globals).any (valueRefs p.1)) ∧
    (∀ p ∈ (g.collect stack globals).objects, p.2.marked = false) ∧
    (∀ p ∈ g.objects, (stack ++ globals).any (valueRefs p.1) = true →
      p ∈ (g.collect stack globals).objects) := by
  have hobj : (g.collect stack globals).objects =
      g.objects.filter (fun p => (stack ++ globals).any (valueRefs p.1)) := by
    show sweepObjects (globals.foldl markValue (stack.foldl markValue g.objects)) = _
    rw [← List.foldl_append, foldl_markValue]
    exact sweep_marked_of_unmarked g.objects
      (fun i => (stack ++ globals).any (valueRefs i)) h
  refine ⟨hobj, ?_, ?_⟩
  · intro p hp
    rw [hobj] at hp
    exact h p (List.mem_of_mem_filter hp)
  · intro p hp hb
    rw [hobj]
    exact List.mem_filter.mpr ⟨hp, hb⟩

/-- Witness for C2 at a concrete registry: only the root-referenced array
survives the collection. -/
theorem collect_retains_exactly_reachable_witness :
    (∀ p ∈ gcTwo.objects, p.2.marked = false) ∧
    (gcTwo.collect [Value.obj (some 0)] []).objects =
      gcTwo.objects.filter (fun p => ([Value.obj (some 0)] ++ []).any (valueRefs p.1)) :=
  ⟨by decide, (collect_retains_exactly_reachable gcTwo [Value.obj (some 0)] []
      (by decide)).1⟩

/-- C4 (amended): `shouldCollect` is true exactly when the live-object
count has reached the current watermark `nextGC`; a collection sets the
watermark to twice the number of surviving objects, floored at the fixed
minimum `threshold` (8), which never changes. -/
theorem shouldCollect_and_watermark (g : GCState) (stack globals : List Value) :
    (g.shouldCollect = true ↔ g.nextGC ≤ g.objects.length) ∧
    (g.collect stack globals).nextGC =
      max g.threshold (2 * (g.collect stack globals).objects.length) ∧
    (g.collect stack globals).threshold = g.threshold := by
  refine ⟨by simp [GCState.shouldCollect], ?_, rfl⟩
  simp only [GCState.collect]
  split <;> omega

/-- C4 counterexample: a collection that triggers at the watermark but
retains nothing leaves the watermark at the floor 8 instead of doubling it
to 16. -/
theorem watermark_not_doubled_counterexample :
    gcEight.shouldCollect = true ∧ gcEight.nextGC = 8 ∧
    (gcEight.collect [] []).nextGC = 8 ∧
    (gcEight.collect [] []).nextGC ≠ 2 * gcEight.nextGC := by decide

theorem lookup_mapInsert (m : List (String × Nat)) (k : String) (v : Nat) :
    lookupLabel (mapInsert m k v) k = some v := by
  induction m with
  | nil => simp [mapInsert, lookupLabel]
  | cons p rest ih =>
    by_cases hk : p.1 = k
    · simp [mapInsert, lookupLabel, hk]
    · have hk' : (p.1 == k) = false := by simp [hk]
      by_cases hr : rest.any (fun q => q.1 == k)
      · have : mapInsert (p :: rest) k v = p :: mapInsert rest k v := by
          simp only [mapInsert, List.any_cons, hk', Bool.false_or, hr, if_true,
            List.map_cons, Bool.false_eq_true, if_false]
        rw [this]
        simpa [lookupLabel, List.find?_cons, hk'] using ih
      · have : mapInsert (p :: rest) k v = p :: (rest ++ [(k, v)]) := by
          simp [mapInsert, hk', hr]
        rw [this]
        have h2 : mapInsert rest k v = rest ++ [(k, v)] := by
          simp [mapInsert, hr]
        rw [h2] at ih
        simpa [lookupLabel, List.find?_cons, hk'] using ih

/-- C5 (amended): `label(name)` records the current instruction count for
`name`, silently overwriting any previously recorded address, and reports
nothing. -/
theorem label_overwrites_silently (a : Assembler) (name : String) :
    lookupLabel (a.label name).labels name = some a.chunk.code.length ∧
    (a.label name).errors = a.errors :=
  ⟨lookup_mapInsert a.labels name a.chunk.code.length, rfl⟩

/-- C5 counterexample: redefining label `L` after one emitted instruction
overwrites the first recorded address 0 with 1 and emits no diagnostic. -/
theorem label_redefinition_counterexample :
    lookupLabel dupLabelAsmFirst.labels "L" = some 0 ∧
    lookupLabel dupLabelAsm.labels "L" = some 1 ∧
    dupLabelAsm.errors = [] := ⟨rfl, rfl, rfl⟩

theorem patchOperand_length (c : Chunk) (off : Nat) (v : Int) :
    (patchOperand c off v).code.length = c.code.length := by
  unfold patchOperand
  cases h : c.code[off]? <;> simp

theorem patchOperand_get_ne (c : Chunk) (off off2 : Nat) (v : Int) (hne : off2 ≠ off) :
    (patchOperand c off v).code[off2]? = c.code[off2]? := by
  unfold patchOperand
  cases h : c.code[off]? with
  | none => rfl
  | some ins => exact List.getElem?_set_ne (fun h2 => hne h2.symm)

theorem patchOperand_get_self (c : Chunk) (off : Nat) (v : Int) (ins : Instruction)
    (h : c.code[off]? = some ins) :
    (patchOperand c off v).code[off]? = some { ins with operand := v } := by
  have hlt : off < c.code.length := by
    rcases List.getElem?_eq_some_iff.mp h with ⟨hl, _⟩
    exact hl
  unfold patchOperand
  rw [h]
  exact List.getElem?_set_eq_of_lt _ hlt

theorem resolveGo_errors_mono (labels : List (String × Nat)) (js : List (Nat × String))
    (c : Chunk) (errs : List String) (e : String) (he : e ∈ errs) :
    e ∈ (resolveGo labels js c errs).2 := by
  induction js generalizing c errs with
  | nil => simpa [resolveGo] using he
  | cons j rest ih =>
    obtain ⟨off, name⟩ := j
    unfold resolveGo
    cases h : lookupLabel labels name with
    | some addr => exact ih _ _ he
    | none => exact ih _ _ (by simp [he])

theorem resolveGo_code_untouched (labels : List (String × Nat)) (js : List (Nat × String))
    (c : Chunk) (errs : List String) (off : Nat) (hoff : off ∉ js.map Prod.fst) :
    (resolveGo labels js c errs).1.code[off]? = c.code[off]? := by
  induction js generalizing c errs with
  | nil => rfl
  | cons j rest ih =>
    obtain ⟨off2, name⟩ := j
    have h1 : off ≠ off2 := by
      intro h
      exact hoff (by simp [h])
    have h2 : off ∉ rest.map Prod.fst := by
      intro h
      exact hoff (by simp [h])
    unfold resolveGo
    cases h : lookupLabel labels name with
    | some addr => rw [ih _ _ h2, patchOperand_get_ne _ _ _ _ h1]
    | none => exact ih _ _ h2

theorem wrap32_small (x : Int) (h1 : 0 ≤ x) (h2 : x < 2 ^ 31) : wrap32 x = x := by
  unfold wrap32
  rw [Int.emod_eq_of_lt (by omega) (by omega)]
  omega

theorem resolveGo_cons_some (labels : List (String × Nat)) (off2 : Nat) (name2 : String)
    (rest : List (Nat × String)) (c : Chunk) (errs : List String) (addr2 : Nat)
    (h : lookupLabel labels name2 = some addr2) :
    resolveGo labels ((off2, name2) :: rest) c errs =
      resolveGo labels rest (patchOperand c off2 (wrap32 addr2)) errs := by
  simp only [resolveGo, h]

theorem resolveGo_cons_none (labels : List (String × Nat)) (off2 : Nat) (name2 : String)
    (rest : List (Nat × String)) (c : Chunk) (errs : List String)
    (h : lookupLabel labels name2 = none) :
    resolveGo labels ((off2, name2) :: rest) c errs =
      resolveGo labels rest c (errs ++ ["Error: Undefined label " ++ name2]) := by
  simp only [resolveGo, h]

theorem resolveGo_spec (labels : List (String × Nat)) (js : List (Nat × String))
    (c : Chunk) (errs : List String) (off : Nat) (name : String)
    (hmem : (off, name) ∈ js) (hnodup : (js.map Prod.fst).Nodup) :
    (lookupLabel labels name = none →
       ("Error: Undefined label " ++ name) ∈ (resolveGo labels js c errs).2 ∧
       (resolveGo labels js c errs).1.code[off]? = c.code[off]?) ∧
    (∀ addr, lookupLabel labels name = some addr → addr < 2 ^ 31 →
       off < c.code.length →
       ((resolveGo labels js c errs).1.code[off]?).map Instruction.operand =
         some ((addr : Nat) : Int)) := by
  induction js generalizing c errs with
  | nil => exact absurd hmem (List.not_mem_nil _)
  | cons j rest ih =>
    obtain ⟨off2, name2⟩ := j
    have hh : (off2 :: rest.map Prod.fst).Nodup := by simpa using hnodup
    have hnd1 : off2 ∉ rest.map Prod.fst := (List.nodup_cons.mp hh).1
    have hnd2 : (rest.map Prod.fst).Nodup := (List.nodup_cons.mp hh).2
    rcases List.mem_cons.mp hmem with hhead | htail
    · obtain ⟨h1, h2⟩ := Prod.ext_iff.mp hhead
      simp only at h1 h2
      subst h1
      subst h2
      constructor
      · intro hl
        rw [resolveGo_cons_none _ _ _ _ _ _ hl]
        refine ⟨resolveGo_errors_mono _ _ _ _ _ (by simp), ?_⟩
        exact resolveGo_code_untouched _ _ _ _ _ hnd1
      · intro addr hl hsmall hofflt
        rw [resolveGo_cons_some _ _ _ _ _ _ _ hl]
        rw [resolveGo_code_untouched _ _ _ _ _ hnd1]
        rw [patchOperand_get_self _ _ _ _ (List.getElem?_eq_getElem hofflt)]
        have hw : wrap32 ((addr : Nat) : Int) = ((addr : Nat) : Int) :=
          wrap32_small _ (Int.natCast_nonneg addr) (by exact_mod_cast hsmall)
        simp [hw]
    · have hne : off ≠ off2 := by
        intro h
        subst h
        exact hnd1 (List.mem_map.mpr ⟨(off, name), htail, rfl⟩)
      constructor
      · intro hl
        cases hl2 : lookupLabel labels name2 with
        | some addr2 =>
          rw [resolveGo_cons_some _ _ _ _ _ _ _ hl2]
          have hrec := (ih (patchOperand c off2 (wrap32 addr2)) errs htail hnd2).1 hl
          exact ⟨hrec.1, by rw [hrec.2, patchOperand_get_ne _ _ _ _ hne]⟩
        | none =>
          rw [resolveGo_cons_none _ _ _ _ _ _ hl2]
          exact (ih c (errs ++ ["Error: Undefined label " ++ name2]) htail hnd2).1 hl
      · intro addr hl hsmall hofflt
        cases hl2 : lookupLabel labels name2 with
        | some addr2 =>
          rw [resolveGo_cons_some _ _ _ _ _ _ _ hl2]
          have hlen : off < (patchOperand c off2 (wrap32 addr2)).code.length := by
            rw [patchOperand_length]
            exact hofflt
          exact (ih (patchOperand c off2 (wrap32 addr2)) errs htail hnd2).2 addr hl
            hsmall hlen
        | none =>
          rw [resolveGo_cons_none _ _ _ _ _ _ hl2]
          exact (ih c (errs ++ ["Error: Undefined label " ++ name2]) htail hnd2).2 addr
            hl hsmall hofflt

theorem lookupLabel_mem (m : List (String × Nat)) (k : String) (v : Nat)
    (h : lookupLabel m k = some v) : ∃ p ∈ m, p.2 = v := by
  obtain ⟨p, hp, hpv⟩ := Option.map_eq_some'.mp h
  exact ⟨p, List.mem_of_find?_eq_some hp, hpv⟩

/-- C6: for every unresolved jump site, `resolve` either patches the
operand to exactly the label's recorded instruction index (label defined)
or emits an "Undefined label" diagnostic and leaves the placeholder
operand untouched (label undefined) — never a silent, unreported
resolution.  Jump sites recorded by the builder have pairwise distinct
offsets and in-range label addresses, stated here as hypotheses. -/
theorem resolve_reports_or_patches_exactly (a : Assembler) (off : Nat) (name : String)
    (hmem : (off, name) ∈ a.unresolvedJumps)
    (hnodup : (a.unresolvedJumps.map Prod.fst).Nodup)
    (hbound : ∀ p ∈ a.labels, p.2 < 2 ^ 31)
    (hoff : off < a.chunk.code.length) :
    match lookupLabel a.labels name with
    | none =>
        ("Error: Undefined label " ++ name) ∈ (a.resolve).errors ∧
        (a.resolve).chunk.code[off]? = a.chunk.code[off]?
    | some addr =>
        ((a.resolve).chunk.code[off]?).map Instruction.operand =
          some ((addr : Nat) : Int) := by
  have hs := resolveGo_spec a.labels a.unresolvedJumps a.chunk a.errors off name hmem hnodup
  cases hl : lookupLabel a.labels name with
  | none => exact hs.1 hl
  | some addr =>
    have hsm : addr < 2 ^ 31 := by
      obtain ⟨p, hp, hpv⟩ := lookupLabel_mem _ _ _ hl
      exact hpv ▸ hbound p hp
    exact hs.2 addr hl hsm hoff

/-- Witness for C6: the forward jump in `fwdJumpAsm` is patched to the
label's recorded index 2. -/
theorem resolve_reports_or_patches_exactly_witness :
    ((fwdJumpAsm.resolve).chunk.code[0]?).map Instruction.operand = some 2 :=
  resolve_reports_or_patches_exactly fwdJumpAsm 0 "end" (by decide) (by decide)
    (by decide) (by decide)

theorem toIp_natCast (t : Nat) (h : t < 2 ^ 64) : toIp (t : Int) = t := by
  unfold toIp
  rw [Int.emod_eq_of_lt (Int.natCast_nonneg t) (by exact_mod_cast h)]
  exact Int.toNat_natCast t

theorem run_step_no_gc (c : Chunk) (fuel : Nat) (s : VMState) (h1 : s.running = true)
    (h2 : s.ip < c.code.length) (h3 : s.gc.shouldCollect = false) :
    VMState.run c (fuel + 1) s = VMState.run c fuel (s.step c) := by
  simp [VMState.run, h1, h2, h3]

theorem run_stop_ip (c : Chunk) (fuel : Nat) (s : VMState) (h : c.code.length ≤ s.ip) :
    VMState.run c fuel s = s := by
  cases fuel with
  | zero => rfl
  | succ n => simp [VMState.run, Nat.not_lt.mpr h]

theorem run_stop_halted (c : Chunk) (fuel : Nat) (s : VMState) (h : s.running = false) :
    VMState.run c fuel s = s := by
  cases fuel with
  | zero => rfl
  | succ n => simp [VMState.run, h]

theorem binaryOp_arith (s : VMState) (x y : Int) (rest : List Value) (op : OpCode)
    (hs : s.stack = Value.int y :: Value.int x :: rest)
    (hop : op = .ADD ∨ op = .SUB ∨ op = .MUL ∨ op = .DIV ∨ op = .MOD)
    (hy : (op = .DIV ∨ op = .MOD) → y ≠ 0) :
    s.binaryOp op = (Value.int (host64 op x y), { s with stack := rest }) := by
  rcases hop with h | h | h | h | h <;> subst h
  · simp [VMState.binaryOp, VMState.pop, hs, host64]
  · simp [VMState.binaryOp, VMState.pop, hs, host64]
  · simp [VMState.binaryOp, VMState.pop, hs, host64]
  · have hy0 : y ≠ 0 := hy (Or.inl rfl)
    simp [VMState.binaryOp, VMState.pop, hs, host64, hy0]
  · have hy0 : y ≠ 0 := hy (Or.inr rfl)
    simp [VMState.binaryOp, VMState.pop, hs, host64, hy0]

theorem step_binaryOp (c : Chunk) (s : VMState) (op : OpCode) (opnd : Int)
    (v : Value) (s2 : VMState)
    (hfetch : c.code[s.ip]? = some { opcode := op, operand := opnd })
    (hop : op = .ADD ∨ op = .SUB ∨ op = .MUL ∨ op = .DIV ∨ op = .MOD)
    (hbin : VMState.binaryOp { s with ip := s.ip + 1 } op = (v, s2)) :
    s.step c = s2.push v := by
  rcases hop with h | h | h | h | h <;> subst h <;>
    (simp only [VMState.step, hfetch]; rw [hbin])

theorem execute_eq (s : VMState) (c : Chunk) (fuel : Nat) :
    s.execute c fuel = ((VMState.run c fuel s.executeInit).running ||
      decide (c.code.length ≤ (VMState.run c fuel s.executeInit).ip),
      VMState.run c fuel s.executeInit) := rfl

theorem arith_run (a b : Int) (op : OpCode)
    (hop : op = .ADD ∨ op = .SUB ∨ op = .MUL ∨ op = .DIV ∨ op = .MOD)
    (hdiv : (op = .DIV ∨ op = .MOD) → b ≠ 0) :
    VMState.run (arithChunk a b op) 5 VMState.init.executeInit = arithS4 a b op := by
  have h1 : VMState.step (arithChunk a b op) VMState.init.executeInit = arithS1 a := rfl
  have h2 : VMState.step (arithChunk a b op) (arithS1 a) = arithS2 a b := rfl
  have h3 : VMState.step (arithChunk a b op) (arithS2 a b) = arithS3 a b op := by
    have hbin : VMState.binaryOp { arithS2 a b with ip := 3 } op =
        (Value.int (host64 op a b), { arithS2 a b with ip := 3, stack := [] }) :=
      binaryOp_arith _ a b [] op rfl hop hdiv
    exact step_binaryOp (arithChunk a b op) (arithS2 a b) op 0
      (Value.int (host64 op a b)) { arithS2 a b with ip := 3, stack := [] } rfl hop hbin
  have h4 : VMState.step (arithChunk a b op) (arithS3 a b op) = arithS4 a b op := rfl
  rw [run_step_no_gc (arithChunk a b op) 4 VMState.init.executeInit rfl
      (show (0 : Nat) < 4 by decide) rfl, h1,
    run_step_no_gc (arithChunk a b op) 3 (arithS1 a) rfl
      (show (1 : Nat) < 4 by decide) rfl, h2,
    run_step_no_gc (arithChunk a b op) 2 (arithS2 a b) rfl
      (show (2 : Nat) < 4 by decide) rfl, h3,
    run_step_no_gc (arithChunk a b op) 1 (arithS3 a b op) rfl
      (show (3 : Nat) < 4 by decide) rfl, h4,
    run_stop_ip (arithChunk a b op) 1 (arithS4 a b op) (show (4 : Nat) ≤ 4 by decide)]

/-- C9: for all 64-bit integers a and b (b nonzero for DIV and MOD), the
program `PUSH a; PUSH b; OP; PRINT` runs without error and prints exactly
the host language's signed 64-bit result of `a OP b` (left operand `a`,
right operand `b`). -/
theorem arith_prints_host_result (a b : Int) (op : OpCode)
    (hop : op = .ADD ∨ op = .SUB ∨ op = .MUL ∨ op = .DIV ∨ op = .MOD)
    (hdiv : (op = .DIV ∨ op = .MOD) → b ≠ 0)
    (_ha : int64Range a) (_hb : int64Range b) :
    (VMState.init.execute (arithChunk a b op) 5).2.output = [Value.int (host64 op a b)] ∧
    (VMState.init.execute (arithChunk a b op) 5).2.errored = false ∧
    (VMState.init.execute (arithChunk a b op) 5).1 = true := by
  have he : VMState.init.execute (arithChunk a b op) 5 = (true, arithS4 a b op) := by
    rw [execute_eq, arith_run a b op hop hdiv]
    rfl
  exact ⟨by rw [he]; rfl, by rw [he]; rfl, by rw [he]⟩

/-- Witness for C9 at `a = -7`, `b = 2`, `OP = DIV`: the program prints the
host's truncated quotient `-3`. -/
theorem arith_prints_host_result_witness :
    (VMState.init.execute (arithChunk (-7) 2 .DIV) 5).2.output =
      [Value.int (host64 .DIV (-7) 2)] ∧
    (VMState.init.execute (arithChunk (-7) 2 .DIV) 5).2.errored = false ∧
    (VMState.init.execute (arithChunk (-7) 2 .DIV) 5).1 = true :=
  arith_prints_host_result (-7) 2 .DIV (by decide)
    (fun _ => by decide) ⟨by decide, by decide⟩ ⟨by decide, by decide⟩

/-- C1 counterexample: the program `HALT; NOP` reaches the Halted terminal
state through its explicit HALT (no runtime error is raised), yet
`execute` returns false, because the instruction pointer (1) has not run
off the end (2) when the loop exits. -/
theorem execute_halt_not_last_counterexample :
    (VMState.init.execute haltNotLastChunk 10).1 = false ∧
    (VMState.init.execute haltNotLastChunk 10).2.errored = false ∧
    (VMState.init.execute haltNotLastChunk 10).2.running = false := ⟨rfl, rfl, rfl⟩

/-- C1 (amended): whenever the run loop has actually terminated (the
running flag is down or the instruction pointer is past the end),
`execute` returns true exactly when the instruction pointer has run off
the end of the instruction sequence — not when the run reached Halted
rather than Errored.  A HALT before the last instruction returns false; a
runtime error at the last instruction returns true. -/
theorem execute_true_iff_ip_off_end (s : VMState) (c : Chunk) (fuel : Nat)
    (hterm : (s.execute c fuel).2.running = false ∨
      c.code.length ≤ (s.execute c fuel).2.ip) :
    (s.execute c fuel).1 = true ↔ c.code.length ≤ (s.execute c fuel).2.ip := by
  rw [execute_eq] at hterm ⊢
  rcases hterm with h | h
  · simp only at h
    simp [h]
  · simp only at h
    simp [h]

/-- Witness for C1's amended theorem on `haltNotLastChunk`: the loop
terminated (HALT), the return value is false, and indeed the instruction
pointer 1 is not past the end 2. -/
theorem execute_true_iff_ip_off_end_witness :
    ((VMState.init.execute haltNotLastChunk 10).2.running = false ∨
      haltNotLastChunk.code.length ≤ (VMState.init.execute haltNotLastChunk 10).2.ip) ∧
    ((VMState.init.execute haltNotLastChunk 10).1 = true ↔
      haltNotLastChunk.code.length ≤ (VMState.init.execute haltNotLastChunk 10).2.ip) :=
  ⟨Or.inl rfl, execute_true_iff_ip_off_end VMState.init haltNotLastChunk 10 (Or.inl rfl)⟩

/-- C3 counterexample: after `PUSH 5; PUSH 0; DIV` the operand stack is not
empty — the failed operation pushed a placeholder Nil Value. -/
theorem div_zero_pushes_nil_counterexample :
    (VMState.init.execute (divZeroChunk 5 .DIV) 5).2.stack = [Value.nil] ∧
    (VMState.init.execute (divZeroChunk 5 .DIV) 5).2.stack ≠ [] :=
  ⟨rfl, fun h => absurd (congrArg List.length h) (by decide)⟩

set_option maxHeartbeats 1000000 in
/-- C3 (amended): for every integer a, `PUSH a; PUSH 0; DIV` (and MOD)
leaves the VM Errored (diagnostic emitted, run stopped) without crashing
and prints nothing, but pushes a placeholder Nil onto the operand stack as
the result of the failed operation. -/
theorem div_by_zero_errors (a : Int) (op : OpCode) (hop : op = .DIV ∨ op = .MOD) :
    (VMState.init.execute (divZeroChunk a op) 5).2.errored = true ∧
    (VMState.init.execute (divZeroChunk a op) 5).2.running = false ∧
    (VMState.init.execute (divZeroChunk a op) 5).2.stack = [Value.nil] ∧
    (VMState.init.execute (divZeroChunk a op) 5).2.output = [] := by
  rcases hop with h | h <;> subst h <;> exact ⟨rfl, rfl, rfl, rfl⟩

/-- Witness for C3's amended theorem at `a = 5`, `OP = DIV`. -/
theorem div_by_zero_errors_witness :
    (VMState.init.execute (divZeroChunk 5 .DIV) 5).2.errored = true ∧
    (VMState.init.execute (divZeroChunk 5 .DIV) 5).2.running = false ∧
    (VMState.init.execute (divZeroChunk 5 .DIV) 5).2.stack = [Value.nil] ∧
    (VMState.init.execute (divZeroChunk 5 .DIV) 5).2.output = [] :=
  div_by_zero_errors 5 .DIV (Or.inl rfl)

set_option maxRecDepth 10000 in
/-- C7 counterexample: a value stored into global slot 0 by one `execute`
run is observed by the next run on the same VM (it prints 42), whereas the
same program on a fresh VM prints nil — the previous invocation's global
table influences the new run. -/
theorem globals_persist_counterexample :
    ((VMState.init.execute storeFortyTwoChunk 10).2.execute printGlobalChunk 10).2.output
      = [Value.int 42] ∧
    (VMState.init.execute printGlobalChunk 10).2.output = [Value.nil] := ⟨rfl, rfl⟩

/-- C7 (amended): the prologue of `execute` resets the instruction pointer
to 0 and clears the operand stack, but keeps the global table, the
call-return address stack and the collector state exactly as the previous
invocation left them. -/
theorem execute_resets_stack_and_ip_only (s : VMState) :
    s.executeInit.ip = 0 ∧ s.executeInit.stack = [] ∧ s.executeInit.running = true ∧
    s.executeInit.globals = s.globals ∧ s.executeInit.callStack = s.callStack ∧
    s.executeInit.gc = s.gc ∧ s.executeInit.output = s.output :=
  ⟨rfl, rfl, rfl, rfl, rfl, rfl, rfl⟩

/-- C8: with an in-range global index and a non-empty operand stack,
STORE_GLOBAL stores the top-of-stack Value into the slot and leaves the
operand stack (and hence its depth and top) unchanged — it peeks, it does
not pop. -/
theorem store_global_peeks (c : Chunk) (s : VMState) (n : Nat) (v : Value)
    (rest : List Value)
    (hfetch : c.code[s.ip]? = some { opcode := .STORE_GLOBAL, operand := (n : Int) })
    (hn : n < s.globals.length) (hstack : s.stack = v :: rest) :
    (s.step c).stack = s.stack ∧ (s.step c).globals = s.globals.set n v ∧
    (s.step c).ip = s.ip + 1 ∧ (s.step c).errored = s.errored ∧
    (s.step c).running = s.running := by
  have hg : (0 : Int) ≤ (n : Int) ∧ (n : Int) < s.globals.length :=
    ⟨Int.natCast_nonneg n, by exact_mod_cast hn⟩
  simp only [VMState.step, hfetch]
  rw [if_pos hg]
  simp [VMState.peek, hstack, Int.toNat_natCast]

set_option maxRecDepth 10000 in
/-- Witness for C8: storing `int 9` through `STORE_GLOBAL 3` leaves the
stack `[int 9]` intact and writes slot 3. -/
theorem store_global_peeks_witness :
    (storeGlobalState.step storeGlobalChunk).stack = storeGlobalState.stack ∧
    (storeGlobalState.step storeGlobalChunk).globals =
      storeGlobalState.globals.set 3 (Value.int 9) ∧
    (storeGlobalState.step storeGlobalChunk).ip = storeGlobalState.ip + 1 ∧
    (storeGlobalState.step storeGlobalChunk).errored = storeGlobalState.errored ∧
    (storeGlobalState.step storeGlobalChunk).running = storeGlobalState.running :=
  store_global_peeks storeGlobalChunk storeGlobalState 3 (Value.int 9) [] rfl
    (by decide) rfl

/-- C10: opcodes that read the stack top through `peek` never raise a
stack-underflow error on an empty operand stack: `peek` yields Nil there,
so DUP pushes Nil, STORE_GLOBAL (in-range index) stores Nil into its slot
leaving the stack empty, and JMP_IF_FALSE treats the missing condition as
falsy and takes the jump — and none of the three emits a runtime error or
stops the run. -/
theorem peek_ops_never_underflow (c1 c2 c3 : Chunk) (s1 s2 s3 : VMState)
    (n t : Nat)
    (hs1 : s1.stack = [])
    (hf1 : c1.code[s1.ip]? = some { opcode := .DUP, operand := 0 })
    (hs2 : s2.stack = [])
    (hf2 : c2.code[s2.ip]? = some { opcode := .STORE_GLOBAL, operand := (n : Int) })
    (hn : n < s2.globals.length)
    (hs3 : s3.stack = [])
    (hf3 : c3.code[s3.ip]? = some { opcode := .JMP_IF_FALSE, operand := (t : Int) })
    (ht : t < 2 ^ 31) :
    ((s1.step c1).stack = [Value.nil] ∧ (s1.step c1).errored = s1.errored ∧
      (s1.step c1).running = s1.running) ∧
    ((s2.step c2).globals = s2.globals.set n Value.nil ∧ (s2.step c2).stack = [] ∧
      (s2.step c2).errored = s2.errored ∧ (s2.step c2).running = s2.running) ∧
    ((s3.step c3).ip = t ∧ (s3.step c3).errored = s3.errored ∧
      (s3.step c3).running = s3.running) := by
  refine ⟨?_, ?_, ?_⟩
  · simp [VMState.step, hf1, VMState.peek, VMState.push, hs1]
  · have hg : (0 : Int) ≤ (n : Int) ∧ (n : Int) < s2.globals.length :=
      ⟨Int.natCast_nonneg n, by exact_mod_cast hn⟩
    simp only [VMState.step, hf2]
    rw [if_pos hg]
    simp [VMState.peek, hs2, Int.toNat_natCast]
  · have htru : ((({ s3 with ip := s3.ip + 1 } : VMState).peek 0).isTruthy) = false := by
      simp [VMState.peek, hs3, Value.isTruthy]
    simp only [VMState.step, hf3, htru, Bool.not_false, if_true]
    have hip : toIp ((t : Nat) : Int) = t :=
      toIp_natCast t (lt_trans ht (by norm_num))
    simp [hip]

set_option maxRecDepth 10000 in
/-- Witness for C10: the three opcodes run from empty-stack states built
over one-instruction chunks. -/
theorem peek_ops_never_underflow_witness :
    ((VMState.init.step dupChunk).stack = [Value.nil] ∧
      (VMState.init.step dupChunk).errored = VMState.init.errored ∧
      (VMState.init.step dupChunk).running = VMState.init.running) ∧
    ((VMState.init.step storeZeroChunk).globals =
        VMState.init.globals.set 0 Value.nil ∧
      (VMState.init.step storeZeroChunk).stack = [] ∧
      (VMState.init.step storeZeroChunk).errored = VMState.init.errored ∧
      (VMState.init.step storeZeroChunk).running = VMState.init.running) ∧
    ((VMState.init.step jmpIfFalseChunk).ip = 7 ∧
      (VMState.init.step jmpIfFalseChunk).errored = VMState.init.errored ∧
      (VMState.init.step jmpIfFalseChunk).running = VMState.init.running) :=
  peek_ops_never_underflow dupChunk storeZeroChunk jmpIfFalseChunk
    VMState.init VMState.init VMState.init 0 7 rfl rfl rfl rfl (by decide) rfl rfl
    (by decide)
